import Mathlib

/-!
# EstablishPaceChannel: the raw and CCID codecs

A shallow embedding of `src/card/base/EstablishPaceChannel.cpp`.

* A `QByteArray` is a list of bytes; a byte is a natural number below 256.
  Where the C++ narrows an `int` to a `char` the embedding writes `% 256`.
* A member function that mutates the object takes the object and returns the
  new object next to its C++ return value.
* `Q_ASSERT` is a no-op (release build), logging is dropped.
-/

namespace governikus

/-- A byte sequence (`QByteArray`); every element is a byte value `0 .. 255`. -/
abbrev QByteArray := List Nat

/-- Modelled from the spec: the enumeration `PacePasswordId`, whose declaration
(`SmartCardDefinitions.h`) is not among the sources. The spec lists
`{MRZ, CAN, PIN, PUK, UNKNOWN}`, stored as a single byte. -/
inductive PacePasswordId
  | UNKNOWN
  | PACE_MRZ
  | PACE_CAN
  | PACE_PIN
  | PACE_PUK
  deriving DecidableEq, Repr

namespace PacePasswordId

/-- Modelled from the spec: the byte of each `PacePasswordId` constant, that is
`static_cast<char>(id)`. The numbering is the one of PC/SC Part 10 amendment 1.1,
which the source names; `UNKNOWN` is the zero byte. -/
def toChar : PacePasswordId → Nat
  | UNKNOWN => 0x00
  | PACE_MRZ => 0x01
  | PACE_CAN => 0x02
  | PACE_PIN => 0x03
  | PACE_PUK => 0x04

/-- Modelled from the spec: the conversion `PacePasswordId(value)` of a byte
that is one of the enumerated values; `none` for every other byte. -/
def fromValue (pValue : Nat) : Option PacePasswordId :=
  if pValue = 0x00 then some UNKNOWN
  else if pValue = 0x01 then some PACE_MRZ
  else if pValue = 0x02 then some PACE_CAN
  else if pValue = 0x03 then some PACE_PIN
  else if pValue = 0x04 then some PACE_PUK
  else none

/-- Modelled from the spec: `Enum<PacePasswordId>::isValue` (`EnumHelper.h` is not
among the sources): the byte is one of the enumerated values. -/
def isValue (pValue : Nat) : Bool :=
  (fromValue pValue).isSome

end PacePasswordId

/-- `qFromLittleEndian<T>`: the unsigned value of the bytes, lowest byte first. -/
def qFromLittleEndian : QByteArray → Nat
  | [] => 0
  | b :: bs => b + 256 * qFromLittleEndian bs

namespace LengthValue

/-- Modelled from the spec: `LengthValue::readByteArray<T>` (`LengthValue.h` is not
among the sources), the reader of one `{length-prefix, payload}` field at a byte
cursor, with a prefix of `typeLength` bytes (1 for `quint8`, 2 for `quint16`),
lowest byte first. It returns the payload and the new cursor. The cursor moves
over the prefix and over the declared payload length, so that a field whose
bytes are missing leaves the cursor beyond the end of the buffer: the spec has
missing bytes show as a cursor that differs from the buffer length. -/
def readByteArray (typeLength : Nat) (pInput : QByteArray) (pOffset : Nat) :
    QByteArray × Nat :=
  let length := qFromLittleEndian ((pInput.drop pOffset).take typeLength)
  let pOffset := pOffset + typeLength
  let result := (pInput.drop pOffset).take length
  (result, pOffset + length)

end LengthValue

/-- The three members of the class `EstablishPaceChannel`. -/
structure EstablishPaceChannel where
  mPasswordId : PacePasswordId
  mChat : QByteArray
  mCertificateDescription : QByteArray
  deriving DecidableEq, Repr

namespace EstablishPaceChannel

/-- The first three statements of both decoders:
`mPasswordId = UNKNOWN; mChat.clear(); mCertificateDescription.clear();`. -/
def cleared : EstablishPaceChannel :=
  { mPasswordId := PacePasswordId.UNKNOWN, mChat := [], mCertificateDescription := [] }

def getPasswordId (self : EstablishPaceChannel) : PacePasswordId :=
  self.mPasswordId

def getChat (self : EstablishPaceChannel) : QByteArray :=
  self.mChat

def getCertificateDescription (self : EstablishPaceChannel) : QByteArray :=
  self.mCertificateDescription

/-- `EstablishPaceChannel::isCcid`: `pInput.startsWith(fromHex("FF9A0402"))`. -/
def isCcid (pInput : QByteArray) : Bool :=
  [0xFF, 0x9A, 0x04, 0x02].isPrefixOf pInput

/-- `EstablishPaceChannel::fromInputData`. The result is the returned `bool` and
the object as the call leaves it. -/
def fromInputData (self : EstablishPaceChannel) (pInput : QByteArray) :
    Bool × EstablishPaceChannel :=
  let self := { self with mPasswordId := PacePasswordId.UNKNOWN }
  let self := { self with mChat := [] }
  let self := { self with mCertificateDescription := [] }
  if pInput.length < 5 then
    (false, self)
  else
    let passwordId := qFromLittleEndian (pInput.take 1)
    match PacePasswordId.fromValue passwordId with
    | none => (false, self)
    | some id =>
      let self := { self with mPasswordId := id }
      let it := 1
      let chat := LengthValue.readByteArray 1 pInput it
      let self := { self with mChat := chat.1 }
      let it := chat.2
      let password := LengthValue.readByteArray 1 pInput it
      let it := password.2
      let description := LengthValue.readByteArray 2 pInput it
      let self := { self with mCertificateDescription := description.1 }
      let it := description.2
      if pInput.length != it then
        (false, self)
      else
        (true, self)

/-- `EstablishPaceChannel::createInputData`. -/
def createInputData (self : EstablishPaceChannel) : QByteArray :=
  let inputData : QByteArray := []
  let inputData := inputData ++ [self.mPasswordId.toChar]
  if self.mChat.length > 0xFF then
    []
  else
    let inputData := inputData ++ [self.mChat.length % 256]
    let inputData := inputData ++ self.mChat
    let inputData := inputData ++ [0]
    if self.mCertificateDescription.length > 0xFFFF then
      []
    else
      let inputData := inputData ++ [(self.mCertificateDescription.length / 2 ^ 0) % 256]
      let inputData := inputData ++ [(self.mCertificateDescription.length / 2 ^ 8) % 256]
      let inputData := inputData ++ self.mCertificateDescription
      inputData

/-- `EstablishPaceChannel::createCommandData`. -/
def createCommandData (self : EstablishPaceChannel) : QByteArray :=
  let INDEX_ESTABLISH_PACE_CHANNEL := 0x02
  let commandData : QByteArray := []
  let commandData := commandData ++ [INDEX_ESTABLISH_PACE_CHANNEL]
  let inputData := self.createInputData
  if inputData.length > 0xFFFF then
    []
  else
    let commandData := commandData ++ [(inputData.length / 2 ^ 0) % 256]
    let commandData := commandData ++ [(inputData.length / 2 ^ 8) % 256]
    let commandData := commandData ++ inputData
    commandData

end EstablishPaceChannel

/-- Modelled from the spec: the parsed command of `CommandApdu` (`CommandApdu.h` is
not among the sources). Class, instruction, P1 and P2 of an ISO 7816 command are
its first four bytes. -/
structure CommandApdu where
  mBuffer : QByteArray

namespace CommandApdu

/-- Modelled from the spec: `CommandApdu::getCLA`, the first byte of the command;
the zero byte when the command has no such byte. -/
def getCLA (self : CommandApdu) : Nat :=
  self.mBuffer.getD 0 0

/-- Modelled from the spec: `CommandApdu::getINS`, the second byte of the command;
the zero byte when the command has no such byte. -/
def getINS (self : CommandApdu) : Nat :=
  self.mBuffer.getD 1 0

/-- Modelled from the spec: `CommandApdu::getP1`, the third byte of the command;
the zero byte when the command has no such byte. -/
def getP1 (self : CommandApdu) : Nat :=
  self.mBuffer.getD 2 0

/-- Modelled from the spec: `CommandApdu::getP2`, the fourth byte of the command;
the zero byte when the command has no such byte. -/
def getP2 (self : CommandApdu) : Nat :=
  self.mBuffer.getD 3 0

end CommandApdu

/-- The object that `decodeObject<ESTABLISHPACECHANNELINPUT>` returns, field by
field of the `ASN1_SEQUENCE`. A pointer that may be null is an `Option`. A field
holds what the decoder reads from it: `mPasswordID` the `long` of
`ASN1_INTEGER_get`, `mCHAT` the bytes of `Asn1OctetStringUtil::getValue`,
`mCertificateDescription` the bytes of `CertificateDescription::encode`. -/
structure ESTABLISHPACECHANNELINPUT where
  mPasswordID : Option Int
  mTransmittedPassword : Option QByteArray
  mCHAT : Option QByteArray
  mCertificateDescription : Option QByteArray
  mHashOID : Option QByteArray

/-- The library capabilities that `fromCcid` consumes: `CommandApdu::getData`,
the data segment of a command, and `decodeObject<ESTABLISHPACECHANNELINPUT>`,
the DER decoder of that segment (`none` is the null pointer of a failed parse). -/
structure Asn1Library where
  getData : CommandApdu → QByteArray
  decodeObject : QByteArray → Option ESTABLISHPACECHANNELINPUT

namespace EstablishPaceChannel

/-- `EstablishPaceChannel::fromCcid`, in a build without assertions. The result is
the returned `bool` and the object as the call leaves it. -/
def fromCcid (lib : Asn1Library) (self : EstablishPaceChannel) (pInput : QByteArray) :
    Bool × EstablishPaceChannel :=
  let self := { self with mPasswordId := PacePasswordId.UNKNOWN }
  let self := { self with mChat := [] }
  let self := { self with mCertificateDescription := [] }
  let command : CommandApdu := ⟨pInput⟩
  if command.getCLA != 0xFF
      || command.getINS != 0x9A
      || command.getP1 != 0x04
      || command.getP2 != 0x02 then
    (false, self)
  else
    let commandData := lib.getData command
    match lib.decodeObject commandData with
    | none => (false, self)
    | some channelInput =>
      let self :=
        match channelInput.mPasswordID with
        | some value =>
          let asn1_char := (value % 256).toNat
          match PacePasswordId.fromValue asn1_char with
          | some id => { self with mPasswordId := id }
          | none => self
        | none => self
      let self :=
        if self.mPasswordId == PacePasswordId.PACE_PIN
            || self.mPasswordId == PacePasswordId.PACE_CAN then
          let self :=
            match channelInput.mCertificateDescription with
            | some description => { self with mCertificateDescription := description }
            | none => self
          match channelInput.mCHAT with
          | some chat => { self with mChat := chat }
          | none => self
        else
          self
      (true, self)

end EstablishPaceChannel

/-- The raw layout in the words of the spec (section 6):
`[1 byte passwordId][1 byte chatLen][chat bytes][1 byte pwLen][pw bytes]`
`[2 bytes certDescLen][certDesc bytes]`, the two-byte length lowest byte first. -/
def rawLayout (passwordId : Nat) (chat pw certDesc : QByteArray) : QByteArray :=
  [passwordId] ++ [chat.length] ++ chat ++ [pw.length] ++ pw
    ++ [certDesc.length % 256, certDesc.length / 256] ++ certDesc

/-- A stand-in for the DER library in examples: the data segment is what follows
the four header bytes and the length byte, and every data segment parses to the
given result. -/
def fixedLibrary (parsed : Option ESTABLISHPACECHANNELINPUT) : Asn1Library :=
  { getData := fun command => command.mBuffer.drop 5
    decodeObject := fun _ => parsed }

/-! ## The length-value reader -/

theorem qFromLittleEndian_singleton (x : Nat) : qFromLittleEndian [x] = x := by
  simp [qFromLittleEndian]

theorem qFromLittleEndian_pair (lo hi : Nat) : qFromLittleEndian [lo, hi] = lo + 256 * hi := by
  simp [qFromLittleEndian]

/-- Reading a one-byte-prefixed field that is wholly present. -/
theorem readByteArray_one (before payload after : QByteArray) :
    LengthValue.readByteArray 1 (before ++ payload.length :: (payload ++ after)) before.length
      = (payload, before.length + 1 + payload.length) := by
  have h1 : List.drop (before.length + 1) (before ++ payload.length :: (payload ++ after))
      = payload ++ after := by
    rw [List.drop_append]; rfl
  simp only [LengthValue.readByteArray, List.drop_left, List.take_succ_cons, List.take_zero,
    qFromLittleEndian_singleton, h1, List.take_left]

/-- Reading a two-byte-prefixed field that is wholly present. -/
theorem readByteArray_two (before payload after : QByteArray) (lo hi : Nat)
    (h : lo + 256 * hi = payload.length) :
    LengthValue.readByteArray 2 (before ++ lo :: hi :: (payload ++ after)) before.length
      = (payload, before.length + 2 + payload.length) := by
  have h1 : List.drop (before.length + 2) (before ++ lo :: hi :: (payload ++ after))
      = payload ++ after := by
    rw [List.drop_append]; rfl
  simp only [LengthValue.readByteArray, List.drop_left, List.take_succ_cons, List.take_zero,
    qFromLittleEndian_pair, h1, h, List.take_left]

/-! ## The raw decoder on a buffer that starts with a whole layout -/

theorem rawLayout_length (passwordId : Nat) (chat pw certDesc : QByteArray) :
    (rawLayout passwordId chat pw certDesc).length
      = 5 + chat.length + pw.length + certDesc.length := by
  simp [rawLayout]; omega

/-- The three reads of `fromInputData` on a layout followed by `after`. -/
theorem reads_rawLayout (passwordId : Nat) (chat pw certDesc after : QByteArray) :
    LengthValue.readByteArray 1 (rawLayout passwordId chat pw certDesc ++ after) 1
      = (chat, 2 + chat.length)
    ∧ LengthValue.readByteArray 1 (rawLayout passwordId chat pw certDesc ++ after)
        (2 + chat.length) = (pw, 3 + chat.length + pw.length)
    ∧ LengthValue.readByteArray 2 (rawLayout passwordId chat pw certDesc ++ after)
        (3 + chat.length + pw.length)
        = (certDesc, 5 + chat.length + pw.length + certDesc.length) := by
  refine ⟨?_, ?_, ?_⟩
  · have h := readByteArray_one [passwordId] chat
      ([pw.length] ++ pw ++ [certDesc.length % 256, certDesc.length / 256] ++ certDesc ++ after)
    have e : rawLayout passwordId chat pw certDesc ++ after = [passwordId] ++ chat.length ::
        (chat ++ ([pw.length] ++ pw ++ [certDesc.length % 256, certDesc.length / 256]
          ++ certDesc ++ after)) := by
      simp [rawLayout]
    rw [List.length_singleton] at h
    rw [e, h]
  · have h := readByteArray_one ([passwordId] ++ [chat.length] ++ chat) pw
      ([certDesc.length % 256, certDesc.length / 256] ++ certDesc ++ after)
    have e : rawLayout passwordId chat pw certDesc ++ after
        = ([passwordId] ++ [chat.length] ++ chat) ++ pw.length ::
          (pw ++ ([certDesc.length % 256, certDesc.length / 256] ++ certDesc ++ after)) := by
      simp [rawLayout]
    have l : 2 + chat.length = ([passwordId] ++ [chat.length] ++ chat).length := by
      simp; omega
    rw [e, l, h]
    simp; omega
  · have h := readByteArray_two ([passwordId] ++ [chat.length] ++ chat ++ [pw.length] ++ pw)
      certDesc after (certDesc.length % 256) (certDesc.length / 256)
      (Nat.mod_add_div certDesc.length 256)
    have e : rawLayout passwordId chat pw certDesc ++ after
        = ([passwordId] ++ [chat.length] ++ chat ++ [pw.length] ++ pw)
          ++ (certDesc.length % 256) :: (certDesc.length / 256) :: (certDesc ++ after) := by
      simp [rawLayout]
    have l : 3 + chat.length + pw.length
        = ([passwordId] ++ [chat.length] ++ chat ++ [pw.length] ++ pw).length := by
      simp; omega
    rw [e, l, h]
    simp; omega

/-- What `fromInputData` does with a layout followed by `after`: it fails on a
password id that is no enumerated value, and otherwise decodes the three fields
and returns whether nothing follows the layout. -/
theorem fromInputData_rawLayout (self : EstablishPaceChannel) (passwordId : Nat)
    (chat pw certDesc after : QByteArray) :
    EstablishPaceChannel.fromInputData self (rawLayout passwordId chat pw certDesc ++ after)
      = match PacePasswordId.fromValue passwordId with
        | none => (false, EstablishPaceChannel.cleared)
        | some id => (decide (after = []), ⟨id, chat, certDesc⟩) := by
  obtain ⟨r1, r2, r3⟩ := reads_rawLayout passwordId chat pw certDesc after
  have hlen : ¬ (rawLayout passwordId chat pw certDesc ++ after).length < 5 := by
    rw [List.length_append, rawLayout_length]; omega
  have hfirst : qFromLittleEndian ((rawLayout passwordId chat pw certDesc ++ after).take 1)
      = passwordId := by
    simp [rawLayout, qFromLittleEndian]
  unfold EstablishPaceChannel.fromInputData
  simp only [hlen, if_false, hfirst]
  cases hv : PacePasswordId.fromValue passwordId with
  | none => rfl
  | some id =>
    simp only [r1, r2, r3, List.length_append, rawLayout_length]
    cases after with
    | nil => simp
    | cons x xs => simp

/-! ## The raw decoder on an accepted buffer -/

theorem readByteArray_snd (typeLength : Nat) (pInput : QByteArray) (pOffset : Nat) :
    (LengthValue.readByteArray typeLength pInput pOffset).2
      = pOffset + typeLength + qFromLittleEndian ((pInput.drop pOffset).take typeLength) :=
  rfl

/-- A read whose new cursor is inside the buffer found its prefix and its payload
whole: the bytes from the old cursor on are the prefix, the payload and the
bytes from the new cursor on. -/
theorem readByteArray_split (typeLength : Nat) (pInput : QByteArray) (pOffset : Nat)
    (h : (LengthValue.readByteArray typeLength pInput pOffset).2 ≤ pInput.length) :
    pInput.drop pOffset
        = (pInput.drop pOffset).take typeLength
          ++ ((LengthValue.readByteArray typeLength pInput pOffset).1
            ++ pInput.drop (LengthValue.readByteArray typeLength pInput pOffset).2)
    ∧ ((pInput.drop pOffset).take typeLength).length = typeLength
    ∧ (LengthValue.readByteArray typeLength pInput pOffset).1.length
        = qFromLittleEndian ((pInput.drop pOffset).take typeLength) := by
  rw [readByteArray_snd] at h
  have hfst : (LengthValue.readByteArray typeLength pInput pOffset).1
      = (pInput.drop (pOffset + typeLength)).take
          (qFromLittleEndian ((pInput.drop pOffset).take typeLength)) := rfl
  rw [hfst, readByteArray_snd]
  refine ⟨?_, ?_, ?_⟩
  · have h1 := (List.take_append_drop typeLength (pInput.drop pOffset)).symm
    have h2 := (List.take_append_drop
      (qFromLittleEndian ((pInput.drop pOffset).take typeLength))
      (pInput.drop (pOffset + typeLength))).symm
    rw [List.drop_drop] at h1 h2
    rw [← h2]
    exact h1
  · rw [List.length_take, List.length_drop]; omega
  · rw [List.length_take, List.length_drop]; omega

/-- An accepted buffer is, byte for byte, a password id, a one-byte length and that
many bytes, a second one-byte length and that many bytes, a two-byte length
(lowest byte first) and that many bytes, and nothing more. -/
theorem fromInputData_accepts_only_layout (self : EstablishPaceChannel) (pInput : QByteArray)
    (h : (EstablishPaceChannel.fromInputData self pInput).1 = true) :
    ∃ (passwordId : Nat) (chat pw certDesc : QByteArray) (lo hi : Nat),
      pInput = [passwordId] ++ [chat.length] ++ chat ++ [pw.length] ++ pw ++ [lo, hi] ++ certDesc
      ∧ lo + 256 * hi = certDesc.length := by
  unfold EstablishPaceChannel.fromInputData at h
  by_cases h5 : pInput.length < 5
  · simp [h5] at h
  · simp only [h5, if_false] at h
    cases hv : PacePasswordId.fromValue (qFromLittleEndian (pInput.take 1)) with
    | none => simp [hv] at h
    | some id =>
      simp only [hv] at h
      have hit : pInput.length
          = (LengthValue.readByteArray 2 pInput
              (LengthValue.readByteArray 1 pInput
                (LengthValue.readByteArray 1 pInput 1).2).2).2 := by
        by_contra hne
        simp [hne] at h
      have e3 := readByteArray_snd 2 pInput
        (LengthValue.readByteArray 1 pInput (LengthValue.readByteArray 1 pInput 1).2).2
      have e2 := readByteArray_snd 1 pInput (LengthValue.readByteArray 1 pInput 1).2
      obtain ⟨s1, n1, l1⟩ := readByteArray_split 1 pInput 1 (by omega)
      obtain ⟨s2, n2, l2⟩ := readByteArray_split 1 pInput
        (LengthValue.readByteArray 1 pInput 1).2 (by omega)
      obtain ⟨s3, n3, l3⟩ := readByteArray_split 2 pInput
        (LengthValue.readByteArray 1 pInput (LengthValue.readByteArray 1 pInput 1).2).2
        (by omega)
      rw [← hit, List.drop_length, List.append_nil] at s3
      obtain ⟨a1, ha1⟩ := List.length_eq_one.mp n1
      obtain ⟨a2, ha2⟩ := List.length_eq_one.mp n2
      obtain ⟨lo, hi, ha3⟩ := List.length_eq_two.mp n3
      have n0 : (pInput.take 1).length = 1 := by rw [List.length_take]; omega
      obtain ⟨a0, ha0⟩ := List.length_eq_one.mp n0
      rw [ha1, qFromLittleEndian_singleton] at l1
      rw [ha2, qFromLittleEndian_singleton] at l2
      rw [ha3, qFromLittleEndian_pair] at l3
      refine ⟨a0, (LengthValue.readByteArray 1 pInput 1).1,
        (LengthValue.readByteArray 1 pInput (LengthValue.readByteArray 1 pInput 1).2).1,
        (LengthValue.readByteArray 2 pInput
          (LengthValue.readByteArray 1 pInput (LengthValue.readByteArray 1 pInput 1).2).2).1,
        lo, hi, ?_, l3.symm⟩
      have h0 := (List.take_append_drop 1 pInput).symm
      rw [ha0, s1, ha1, s2, ha2, s3, ha3, ← l1, ← l2] at h0
      simpa using h0

/-- A layout that is a prefix of a layout is that layout. -/
theorem layout_prefix_eq (passwordId : Nat) (chat pw certDesc : QByteArray) (lo hi : Nat)
    (hlen : lo + 256 * hi = certDesc.length) (passwordId2 : Nat) (chat2 pw2 certDesc2 : QByteArray)
    (after : QByteArray)
    (h : ([passwordId] ++ [chat.length] ++ chat ++ [pw.length] ++ pw ++ [lo, hi] ++ certDesc)
          ++ after = rawLayout passwordId2 chat2 pw2 certDesc2) :
    after = [] := by
  simp only [rawLayout, List.append_assoc, List.singleton_append, List.cons_append,
    List.nil_append, List.cons.injEq] at h
  obtain ⟨-, hc, h⟩ := h
  obtain ⟨-, h⟩ := List.append_inj h hc
  simp only [List.cons.injEq] at h
  obtain ⟨hp, h⟩ := h
  obtain ⟨-, h⟩ := List.append_inj h hp
  simp only [List.cons.injEq] at h
  obtain ⟨hlo, hhi, h⟩ := h
  have hd : certDesc.length = certDesc2.length := by
    have := Nat.mod_add_div certDesc2.length 256
    omega
  have hl := congrArg List.length h
  rw [List.length_append] at hl
  exact List.length_eq_zero.mp (by omega)

/-! ## The raw encoder -/

theorem fromValue_toChar (id : PacePasswordId) :
    PacePasswordId.fromValue id.toChar = some id := by
  cases id <;> rfl

/-- Within both size limits the raw encoding is the layout with an empty
transmitted password. -/
theorem createInputData_eq_rawLayout (self : EstablishPaceChannel)
    (hchat : self.mChat.length ≤ 255) (hdesc : self.mCertificateDescription.length ≤ 65535) :
    self.createInputData
      = rawLayout self.mPasswordId.toChar self.mChat [] self.mCertificateDescription := by
  have h1 : ¬ self.mChat.length > 0xFF := by omega
  have h2 : ¬ self.mCertificateDescription.length > 0xFFFF := by omega
  have h3 : self.mChat.length % 256 = self.mChat.length := Nat.mod_eq_of_lt (by omega)
  have h4 : self.mCertificateDescription.length / 256 % 256
      = self.mCertificateDescription.length / 256 := Nat.mod_eq_of_lt (by omega)
  simp [EstablishPaceChannel.createInputData, rawLayout, h1, h2, h3, h4]

/-- Beyond a size limit the raw encoding is the empty byte sequence. -/
theorem createInputData_eq_nil (self : EstablishPaceChannel)
    (h : 255 < self.mChat.length ∨ 65535 < self.mCertificateDescription.length) :
    self.createInputData = [] := by
  unfold EstablishPaceChannel.createInputData
  by_cases h1 : self.mChat.length > 0xFF
  · simp [h1]
  · have h2 : self.mCertificateDescription.length > 0xFFFF := by omega
    simp [h1, h2]

/-- The command data of an entity whose raw encoding has at most 65535 bytes: the
feature index, the two-byte length, the raw encoding. -/
theorem createCommandData_of_fits (self : EstablishPaceChannel)
    (hfits : self.createInputData.length ≤ 65535) :
    self.createCommandData
      = [0x02, self.createInputData.length % 256, self.createInputData.length / 256]
        ++ self.createInputData := by
  have h1 : ¬ self.createInputData.length > 0xFFFF := by omega
  have h2 : self.createInputData.length / 256 % 256 = self.createInputData.length / 256 :=
    Nat.mod_eq_of_lt (by omega)
  simp [EstablishPaceChannel.createCommandData, h1, h2]

/-- A raw encoding of more than 65535 bytes gives the empty command data. -/
theorem createCommandData_of_too_long (self : EstablishPaceChannel)
    (hlong : 65535 < self.createInputData.length) :
    self.createCommandData = [] := by
  have h1 : self.createInputData.length > 0xFFFF := by omega
  simp [EstablishPaceChannel.createCommandData, h1]

/-! ## The claims on the raw format -/

/-- C1: raw round trip. For every password id, every chat of at most 255 bytes and
every certificate description of at most 65535 bytes, `fromInputData` on the
bytes of `createInputData` returns true and leaves the three getters equal to the
three encoded values, whatever the object held before. -/
theorem raw_round_trip (self : EstablishPaceChannel) (passwordId : PacePasswordId)
    (chat certificateDescription : QByteArray)
    (hchat : chat.length ≤ 255) (hdesc : certificateDescription.length ≤ 65535) :
    (EstablishPaceChannel.fromInputData self
        (EstablishPaceChannel.createInputData ⟨passwordId, chat, certificateDescription⟩)).1
      = true
    ∧ (EstablishPaceChannel.fromInputData self
        (EstablishPaceChannel.createInputData
          ⟨passwordId, chat, certificateDescription⟩)).2.getPasswordId = passwordId
    ∧ (EstablishPaceChannel.fromInputData self
        (EstablishPaceChannel.createInputData
          ⟨passwordId, chat, certificateDescription⟩)).2.getChat = chat
    ∧ (EstablishPaceChannel.fromInputData self
        (EstablishPaceChannel.createInputData
          ⟨passwordId, chat, certificateDescription⟩)).2.getCertificateDescription
        = certificateDescription := by
  have henc := createInputData_eq_rawLayout ⟨passwordId, chat, certificateDescription⟩ hchat hdesc
  have hdec := fromInputData_rawLayout self passwordId.toChar chat [] certificateDescription []
  rw [List.append_nil, fromValue_toChar] at hdec
  rw [henc]
  simp only at hdec ⊢
  rw [hdec]
  simp [EstablishPaceChannel.getPasswordId, EstablishPaceChannel.getChat,
    EstablishPaceChannel.getCertificateDescription]

theorem raw_round_trip_witness :
    ([0x30, 0x31, 0x32] : QByteArray).length ≤ 255
    ∧ ([0x41, 0x42] : QByteArray).length ≤ 65535
    ∧ (EstablishPaceChannel.fromInputData ⟨.PACE_PUK, [7], [7, 7]⟩
        [0x03, 0x03, 0x30, 0x31, 0x32, 0x00, 0x02, 0x00, 0x41, 0x42]).1 = true
    ∧ (EstablishPaceChannel.fromInputData ⟨.PACE_PUK, [7], [7, 7]⟩
        [0x03, 0x03, 0x30, 0x31, 0x32, 0x00, 0x02, 0x00, 0x41, 0x42]).2.getChat
        = [0x30, 0x31, 0x32] :=
  have h := raw_round_trip ⟨.PACE_PUK, [7], [7, 7]⟩ .PACE_PIN [0x30, 0x31, 0x32] [0x41, 0x42]
    (by decide) (by decide)
  ⟨by decide, by decide, h.1, h.2.2.1⟩

/-- C2: the decode that fails on the final size check keeps what it decoded. The
buffer is a whole layout (PIN, chat `AA`, no password, no description) followed
by the byte `99`: `fromInputData` returns false and leaves the password id PIN
and the chat `AA` in the object. -/
theorem raw_failed_decode_keeps_fields :
    EstablishPaceChannel.fromInputData EstablishPaceChannel.cleared
        [0x03, 0x01, 0xAA, 0x00, 0x00, 0x00, 0x99]
      = (false, ⟨.PACE_PIN, [0xAA], []⟩) := by
  decide

/-- C5: size limits of the raw encoder. Beyond either limit `createInputData`
returns the empty byte sequence; within both limits it returns a non-empty
buffer of `5 + |chat| + |certificateDescription|` bytes. -/
theorem createInputData_size_limits (self : EstablishPaceChannel) :
    ((255 < self.mChat.length ∨ 65535 < self.mCertificateDescription.length)
        → self.createInputData = [])
    ∧ (self.mChat.length ≤ 255 → self.mCertificateDescription.length ≤ 65535
        → self.createInputData ≠ []
          ∧ self.createInputData.length
              = 5 + self.mChat.length + self.mCertificateDescription.length) := by
  refine ⟨createInputData_eq_nil self, fun hchat hdesc => ?_⟩
  have hlen : self.createInputData.length
      = 5 + self.mChat.length + self.mCertificateDescription.length := by
    rw [createInputData_eq_rawLayout self hchat hdesc, rawLayout_length]; simp
  refine ⟨fun hnil => ?_, hlen⟩
  rw [hnil, List.length_nil] at hlen
  omega

theorem createInputData_size_limits_witness :
    EstablishPaceChannel.createInputData ⟨.PACE_CAN, List.replicate 300 0x55, [1]⟩ = []
    ∧ (EstablishPaceChannel.createInputData ⟨.PACE_CAN, [0x55, 0x56], [1]⟩ ≠ []
      ∧ (EstablishPaceChannel.createInputData ⟨.PACE_CAN, [0x55, 0x56], [1]⟩).length
          = 5 + 2 + 1) :=
  ⟨(createInputData_size_limits ⟨.PACE_CAN, List.replicate 300 0x55, [1]⟩).1
      (Or.inl (by show 255 < (List.replicate 300 0x55).length
                  rw [List.length_replicate]; omega)),
    (createInputData_size_limits ⟨.PACE_CAN, [0x55, 0x56], [1]⟩).2 (by decide) (by decide)⟩

/-- C6: the command data of an entity whose raw encoding fails. For a chat of 256
bytes `createInputData` returns the empty byte sequence and `createCommandData`
returns the three bytes `02 00 00`, not the empty byte sequence. -/
theorem createCommandData_after_failed_raw_encoding :
    EstablishPaceChannel.createInputData ⟨.PACE_PIN, List.replicate 256 0x00, []⟩ = []
    ∧ EstablishPaceChannel.createCommandData ⟨.PACE_PIN, List.replicate 256 0x00, []⟩
        = [0x02, 0x00, 0x00] := by
  have h : EstablishPaceChannel.createInputData ⟨.PACE_PIN, List.replicate 256 0x00, []⟩ = [] :=
    createInputData_eq_nil _
      (Or.inl (by show 255 < (List.replicate 256 0x00).length
                  rw [List.length_replicate]; omega))
  refine ⟨h, ?_⟩
  unfold EstablishPaceChannel.createCommandData
  rw [h]
  rfl

/-- C8: length exactness of the raw decoder. Every buffer of fewer than 5 bytes is
rejected, and a whole layout followed by one more byte is rejected. -/
theorem raw_length_exactness (self : EstablishPaceChannel) :
    (∀ pInput : QByteArray, pInput.length < 5
        → (EstablishPaceChannel.fromInputData self pInput).1 = false)
    ∧ (∀ (passwordId : Nat) (chat pw certDesc : QByteArray) (x : Nat),
        (EstablishPaceChannel.fromInputData self
          (rawLayout passwordId chat pw certDesc ++ [x])).1 = false) := by
  refine ⟨fun pInput hshort => ?_, fun passwordId chat pw certDesc x => ?_⟩
  · simp [EstablishPaceChannel.fromInputData, hshort]
  · rw [fromInputData_rawLayout]
    cases PacePasswordId.fromValue passwordId <;> simp

theorem raw_length_exactness_witness :
    (EstablishPaceChannel.fromInputData EstablishPaceChannel.cleared
        [0x03, 0x00, 0x00, 0x00]).1 = false :=
  (raw_length_exactness EstablishPaceChannel.cleared).1 [0x03, 0x00, 0x00, 0x00] (by decide)

/-- C9: invalid password id in the raw format. For every buffer of at least 5
bytes whose first byte is no enumerated password id, `fromInputData` returns
false and leaves the password id UNKNOWN, the chat empty and the certificate
description empty. -/
theorem raw_invalid_password_id (self : EstablishPaceChannel) (first : Nat)
    (rest : QByteArray) (hlen : 5 ≤ (first :: rest).length)
    (hbad : PacePasswordId.isValue first = false) :
    (EstablishPaceChannel.fromInputData self (first :: rest)).1 = false
    ∧ (EstablishPaceChannel.fromInputData self (first :: rest)).2.getPasswordId
        = PacePasswordId.UNKNOWN
    ∧ (EstablishPaceChannel.fromInputData self (first :: rest)).2.getChat = []
    ∧ (EstablishPaceChannel.fromInputData self (first :: rest)).2.getCertificateDescription
        = [] := by
  have h5 : ¬ (first :: rest).length < 5 := by omega
  have hnone : PacePasswordId.fromValue first = none := by
    simpa [PacePasswordId.isValue] using hbad
  have hres : EstablishPaceChannel.fromInputData self (first :: rest)
      = (false, EstablishPaceChannel.cleared) := by
    unfold EstablishPaceChannel.fromInputData
    simp only [h5, if_false, List.take_succ_cons, List.take_zero, qFromLittleEndian_singleton,
      hnone]
    rfl
  rw [hres]
  exact ⟨rfl, rfl, rfl, rfl⟩

theorem raw_invalid_password_id_witness :
    5 ≤ ([0xFF, 0x00, 0x00, 0x00, 0x00] : QByteArray).length
    ∧ PacePasswordId.isValue 0xFF = false
    ∧ (EstablishPaceChannel.fromInputData ⟨.PACE_PIN, [1], [2]⟩
        [0xFF, 0x00, 0x00, 0x00, 0x00]).1 = false
    ∧ (EstablishPaceChannel.fromInputData ⟨.PACE_PIN, [1], [2]⟩
        [0xFF, 0x00, 0x00, 0x00, 0x00]).2.getPasswordId = PacePasswordId.UNKNOWN :=
  have h := raw_invalid_password_id ⟨.PACE_PIN, [1], [2]⟩ 0xFF [0x00, 0x00, 0x00, 0x00]
    (by decide) (by decide)
  ⟨by decide, by decide, h.1, h.2.1⟩

/-- C4: raw framing is exact. A byte sequence that `fromInputData` accepts is a
whole layout, with a chat and a password of at most 255 bytes and a certificate
description of at most 65535 bytes, and nothing after it; and a layout cut short
at any place, so with bytes missing, is rejected. -/
theorem raw_framing_exact (self : EstablishPaceChannel) :
    (∀ pInput : QByteArray, (∀ x ∈ pInput, x < 256)
        → (EstablishPaceChannel.fromInputData self pInput).1 = true
        → ∃ (passwordId : Nat) (chat pw certDesc : QByteArray),
            pInput = rawLayout passwordId chat pw certDesc
            ∧ chat.length ≤ 255 ∧ pw.length ≤ 255 ∧ certDesc.length ≤ 65535)
    ∧ (∀ (passwordId : Nat) (chat pw certDesc : QByteArray) (k : Nat),
        k < (rawLayout passwordId chat pw certDesc).length
        → (EstablishPaceChannel.fromInputData self
            ((rawLayout passwordId chat pw certDesc).take k)).1 = false) := by
  constructor
  · intro pInput hbytes h
    obtain ⟨passwordId, chat, pw, certDesc, lo, hi, hform, hlen⟩ :=
      fromInputData_accepts_only_layout self pInput h
    have hchat : chat.length < 256 := hbytes _ (by rw [hform]; simp)
    have hpw : pw.length < 256 := hbytes _ (by rw [hform]; simp)
    have hlo : lo < 256 := hbytes _ (by rw [hform]; simp)
    have hhi : hi < 256 := hbytes _ (by rw [hform]; simp)
    refine ⟨passwordId, chat, pw, certDesc, ?_, by omega, by omega, by omega⟩
    have e1 : certDesc.length % 256 = lo := by omega
    have e2 : certDesc.length / 256 = hi := by omega
    rw [hform, rawLayout, e1, e2]
  · intro passwordId chat pw certDesc k hk
    cases hres : (EstablishPaceChannel.fromInputData self
        ((rawLayout passwordId chat pw certDesc).take k)).1 with
    | false => rfl
    | true =>
      exfalso
      obtain ⟨p1, c1, w1, d1, lo, hi, hform, hlen⟩ :=
        fromInputData_accepts_only_layout self _ hres
      have hsplit := List.take_append_drop k (rawLayout passwordId chat pw certDesc)
      rw [hform] at hsplit
      have hnil := layout_prefix_eq p1 c1 w1 d1 lo hi hlen passwordId chat pw certDesc _ hsplit
      have hl := congrArg List.length hnil
      rw [List.length_drop, List.length_nil] at hl
      omega

theorem raw_framing_exact_witness :
    (∃ (passwordId : Nat) (chat pw certDesc : QByteArray),
        ([0x02, 0x01, 0xC0, 0x01, 0x31, 0x01, 0x00, 0x30] : QByteArray)
          = rawLayout passwordId chat pw certDesc
        ∧ chat.length ≤ 255 ∧ pw.length ≤ 255 ∧ certDesc.length ≤ 65535)
    ∧ (EstablishPaceChannel.fromInputData EstablishPaceChannel.cleared
        ((rawLayout 0x03 [0xA1, 0xA2, 0xA3] [0x31] [0x30]).take 5)).1 = false
    ∧ (EstablishPaceChannel.fromInputData EstablishPaceChannel.cleared
        ((rawLayout 0x03 [0xA1, 0xA2, 0xA3] [0x31] [0x30]).take 7)).1 = false :=
  ⟨(raw_framing_exact EstablishPaceChannel.cleared).1
      [0x02, 0x01, 0xC0, 0x01, 0x31, 0x01, 0x00, 0x30] (by decide) (by decide),
    (raw_framing_exact EstablishPaceChannel.cleared).2 0x03 [0xA1, 0xA2, 0xA3] [0x31] [0x30] 5
      (by decide),
    (raw_framing_exact EstablishPaceChannel.cleared).2 0x03 [0xA1, 0xA2, 0xA3] [0x31] [0x30] 7
      (by decide)⟩

/-! ## The claims on the CCID format -/

/-- C7: header rejection. `isCcid` is true exactly for the byte sequences that start
with `FF 9A 04 02`; on every other byte sequence `fromCcid` returns false and
leaves the password id UNKNOWN, the chat empty and the certificate description
empty. -/
theorem ccid_header_rejection (lib : Asn1Library) (self : EstablishPaceChannel)
    (pInput : QByteArray) :
    (EstablishPaceChannel.isCcid pInput = true
        ↔ ∃ rest : QByteArray, pInput = 0xFF :: 0x9A :: 0x04 :: 0x02 :: rest)
    ∧ ((¬ ∃ rest : QByteArray, pInput = 0xFF :: 0x9A :: 0x04 :: 0x02 :: rest)
        → (EstablishPaceChannel.fromCcid lib self pInput).1 = false
          ∧ (EstablishPaceChannel.fromCcid lib self pInput).2.getPasswordId
              = PacePasswordId.UNKNOWN
          ∧ (EstablishPaceChannel.fromCcid lib self pInput).2.getChat = []
          ∧ (EstablishPaceChannel.fromCcid lib self pInput).2.getCertificateDescription
              = []) := by
  constructor
  · rcases pInput with _ | ⟨a, _ | ⟨b, _ | ⟨c, _ | ⟨d, rest⟩⟩⟩⟩ <;>
      simp [EstablishPaceChannel.isCcid, List.isPrefixOf]
    omega
  · intro hno
    have hres : EstablishPaceChannel.fromCcid lib self pInput
        = (false, EstablishPaceChannel.cleared) := by
      rcases pInput with _ | ⟨a, _ | ⟨b, _ | ⟨c, _ | ⟨d, rest⟩⟩⟩⟩ <;>
        simp [EstablishPaceChannel.fromCcid, CommandApdu.getCLA, CommandApdu.getINS,
          CommandApdu.getP1, CommandApdu.getP2, EstablishPaceChannel.cleared] at hno ⊢
      intro ha hb hc hd
      exact absurd hd (hno ha hb hc)
    rw [hres]
    exact ⟨rfl, rfl, rfl, rfl⟩

theorem ccid_header_rejection_witness :
    (EstablishPaceChannel.fromCcid
        (fixedLibrary (some ⟨some 3, none, some [0xC0], some [0x30, 0x00], none⟩))
        ⟨.PACE_PIN, [1], [2]⟩ [0xFF, 0x9A, 0x04, 0x03, 0x00]).1 = false
    ∧ (EstablishPaceChannel.fromCcid
        (fixedLibrary (some ⟨some 3, none, some [0xC0], some [0x30, 0x00], none⟩))
        ⟨.PACE_PIN, [1], [2]⟩ [0xFF, 0x9A, 0x04, 0x03, 0x00]).2.getPasswordId
        = PacePasswordId.UNKNOWN :=
  have h := (ccid_header_rejection
    (fixedLibrary (some ⟨some 3, none, some [0xC0], some [0x30, 0x00], none⟩))
    ⟨.PACE_PIN, [1], [2]⟩ [0xFF, 0x9A, 0x04, 0x03, 0x00]).2 (by simp)
  ⟨h.1, h.2.1⟩

/-- C3: a bad password id in the CCID format. On a command with the header
`FF 9A 04 02` whose data segment parses, `fromCcid` (assertions off) returns true
when the password-id field is absent and when its value is no enumerated
password id; it leaves the password id UNKNOWN and both other fields empty. -/
theorem ccid_bad_password_id_returns_true (lib : Asn1Library) (self : EstablishPaceChannel)
    (rest : QByteArray) (channelInput : ESTABLISHPACECHANNELINPUT)
    (hparse : lib.decodeObject (lib.getData ⟨0xFF :: 0x9A :: 0x04 :: 0x02 :: rest⟩)
        = some channelInput)
    (hbad : channelInput.mPasswordID = none
        ∨ ∃ value : Int, channelInput.mPasswordID = some value
            ∧ PacePasswordId.isValue (value % 256).toNat = false) :
    EstablishPaceChannel.fromCcid lib self (0xFF :: 0x9A :: 0x04 :: 0x02 :: rest)
      = (true, EstablishPaceChannel.cleared) := by
  rcases hbad with hnone | ⟨value, hsome, hval⟩
  · simp [EstablishPaceChannel.fromCcid, CommandApdu.getCLA, CommandApdu.getINS,
      CommandApdu.getP1, CommandApdu.getP2, hparse, hnone, EstablishPaceChannel.cleared]
  · have hv : PacePasswordId.fromValue (value % 256).toNat = none := by
      simpa [PacePasswordId.isValue] using hval
    simp [EstablishPaceChannel.fromCcid, CommandApdu.getCLA, CommandApdu.getINS,
      CommandApdu.getP1, CommandApdu.getP2, hparse, hsome, hv, EstablishPaceChannel.cleared]

theorem ccid_bad_password_id_returns_true_witness :
    EstablishPaceChannel.fromCcid
        (fixedLibrary (some ⟨some 9, none, some [0xC0], none, none⟩))
        ⟨.PACE_PUK, [], []⟩
        [0xFF, 0x9A, 0x04, 0x02, 0x07, 0x30, 0x05, 0xA1, 0x03, 0x02, 0x01, 0x09]
      = (true, EstablishPaceChannel.cleared) :=
  ccid_bad_password_id_returns_true
    (fixedLibrary (some ⟨some 9, none, some [0xC0], none, none⟩)) ⟨.PACE_PUK, [], []⟩
    [0x07, 0x30, 0x05, 0xA1, 0x03, 0x02, 0x01, 0x09] ⟨some 9, none, some [0xC0], none, none⟩
    rfl (Or.inr ⟨9, rfl, by decide⟩)

/-- C10: CCID field relevance. On a command with the header `FF 9A 04 02` whose data
segment parses and carries the enumerated password id `p`, `fromCcid` returns true
with password id `p`. For PIN and CAN the chat and the certificate description
are the values of the optional fields, empty where the field is absent; for
every other password id both are empty, whatever the optional fields hold. -/
theorem ccid_field_relevance (lib : Asn1Library) (self : EstablishPaceChannel)
    (rest : QByteArray) (channelInput : ESTABLISHPACECHANNELINPUT) (p : PacePasswordId)
    (hparse : lib.decodeObject (lib.getData ⟨0xFF :: 0x9A :: 0x04 :: 0x02 :: rest⟩)
        = some channelInput)
    (hid : channelInput.mPasswordID = some (p.toChar : Int)) :
    (EstablishPaceChannel.fromCcid lib self (0xFF :: 0x9A :: 0x04 :: 0x02 :: rest)).1 = true
    ∧ (EstablishPaceChannel.fromCcid lib self
        (0xFF :: 0x9A :: 0x04 :: 0x02 :: rest)).2.getPasswordId = p
    ∧ ((p = PacePasswordId.PACE_PIN ∨ p = PacePasswordId.PACE_CAN)
        → (EstablishPaceChannel.fromCcid lib self
            (0xFF :: 0x9A :: 0x04 :: 0x02 :: rest)).2.getChat = channelInput.mCHAT.getD []
          ∧ (EstablishPaceChannel.fromCcid lib self
            (0xFF :: 0x9A :: 0x04 :: 0x02 :: rest)).2.getCertificateDescription
              = channelInput.mCertificateDescription.getD [])
    ∧ ((¬ (p = PacePasswordId.PACE_PIN ∨ p = PacePasswordId.PACE_CAN))
        → (EstablishPaceChannel.fromCcid lib self
            (0xFF :: 0x9A :: 0x04 :: 0x02 :: rest)).2.getChat = []
          ∧ (EstablishPaceChannel.fromCcid lib self
            (0xFF :: 0x9A :: 0x04 :: 0x02 :: rest)).2.getCertificateDescription = []) := by
  have hres : EstablishPaceChannel.fromCcid lib self (0xFF :: 0x9A :: 0x04 :: 0x02 :: rest)
      = (true,
          if p = PacePasswordId.PACE_PIN ∨ p = PacePasswordId.PACE_CAN then
            ⟨p, channelInput.mCHAT.getD [], channelInput.mCertificateDescription.getD []⟩
          else ⟨p, [], []⟩) := by
    cases hchat : channelInput.mCHAT <;> cases hdesc : channelInput.mCertificateDescription <;>
      cases p <;>
      simp [EstablishPaceChannel.fromCcid, CommandApdu.getCLA, CommandApdu.getINS,
        CommandApdu.getP1, CommandApdu.getP2, hparse, hid, hchat, hdesc,
        PacePasswordId.toChar, PacePasswordId.fromValue]
  rw [hres]
  refine ⟨rfl, ?_, ?_, ?_⟩
  · by_cases hp : p = PacePasswordId.PACE_PIN ∨ p = PacePasswordId.PACE_CAN <;>
      simp [hp, EstablishPaceChannel.getPasswordId]
  · intro hp
    simp [hp, EstablishPaceChannel.getChat, EstablishPaceChannel.getCertificateDescription]
  · intro hp
    simp [hp, EstablishPaceChannel.getChat, EstablishPaceChannel.getCertificateDescription]

theorem ccid_field_relevance_witness :
    (EstablishPaceChannel.fromCcid
        (fixedLibrary (some ⟨some 3, none, none, some [0x30, 0x00], none⟩))
        ⟨.PACE_PUK, [1], [2]⟩ [0xFF, 0x9A, 0x04, 0x02, 0x00]).1 = true
    ∧ (EstablishPaceChannel.fromCcid
        (fixedLibrary (some ⟨some 3, none, none, some [0x30, 0x00], none⟩))
        ⟨.PACE_PUK, [1], [2]⟩ [0xFF, 0x9A, 0x04, 0x02, 0x00]).2.getPasswordId
        = PacePasswordId.PACE_PIN
    ∧ (EstablishPaceChannel.fromCcid
        (fixedLibrary (some ⟨some 3, none, none, some [0x30, 0x00], none⟩))
        ⟨.PACE_PUK, [1], [2]⟩ [0xFF, 0x9A, 0x04, 0x02, 0x00]).2.getChat = [] :=
  have h := ccid_field_relevance
    (fixedLibrary (some ⟨some 3, none, none, some [0x30, 0x00], none⟩))
    ⟨.PACE_PUK, [1], [2]⟩ [0x00] ⟨some 3, none, none, some [0x30, 0x00], none⟩
    PacePasswordId.PACE_PIN rfl rfl
  ⟨h.1, h.2.1, (h.2.2.1 (Or.inl rfl)).1⟩

end governikus
